import Mathlib

/-!
Shallow embedding of the Scheme interpreter in `src/src/parser.cpp`,
`src/src/evaluation.cpp` and `src/src/main.cpp` (the files under
`src/unnamed/` are earlier drafts of the same two translation units and are
superseded by the active definitions).

Modelling conventions:
* C++ `int` fields of `Integer`/`Rational` are modelled as unbounded `Int`
  (the spec fixes no machine width and leaves signed overflow outside the
  numeric-tower design).
* Runtime values are a closed inductive type.  Pairs are immutable in this
  embedding; the pointer-level cdr-chain traversal of `IsList::evalRator`,
  where `set-cdr!` can create cycles, is modelled separately on an explicit
  pair heap (`PairHeap` below).
* The environment is a chain of frames allocated in an explicit store, so
  that the in-place mutation done by `Set::eval` and by `modify` (used by
  `Define::eval`) is shared by every holder of a frame, as in the C++ code.
  `Assoc` is the (nullable) address of the head frame; C++ `eval(Assoc &e)`
  takes the environment by reference and may reassign it (only
  `Define::eval` does), so the embedded evaluator returns the final head
  pointer alongside the value and the store.
* Evaluation is indexed by fuel (`Nat`); fuel exhaustion is the distinct
  outcome `EvalRes.out`, never confused with a thrown `RuntimeError`.
-/

namespace Scheme

/-- Expression-type tags, mirroring the `ExprType` enumeration referenced by
`Def.hpp` (the header is not under `src/`; the tags used by the two active
translation units are reproduced). -/
inductive ExprType where
  | eVoid | eExit | eBoolq | eIntq | eNullq | ePairq | eProcq | eSymbolq
  | eStringq | eListq | eDisplay
  | ePlus | eMinus | eMul | eDiv | eModulo | eExpt | eEqq
  | eLt | eLe | eEq | eGe | eGt
  | eCons | eCar | eCdr | eList | eSetcar | eSetcdr
  | eNot | eAnd | eOr
  | eBegin | eQuote | eIf | eCond | eLambda | eDefine | eLet | eLetrec | eSet
deriving DecidableEq, Repr

/-- Syntax-tree nodes.  Modelled from the spec: the reader is an external
collaborator; section 6 fixes its node kinds as integer literal, rational
literal, the two booleans, string literal, symbol and list-of-syntax. -/
inductive Stx where
  | num (n : Int)
  | ratS (numerator denominator : Int)
  | trueS
  | falseS
  | strS (s : String)
  | symS (s : String)
  | list (stxs : List Stx)
deriving Repr

/-- Expression-tree nodes, one constructor per concrete `Expr` subclass that
the two active translation units construct or evaluate. -/
inductive Expr where
  | fixnum (n : Int)
  | rationalNum (numerator denominator : Int)
  | stringExpr (s : String)
  | trueE
  | falseE
  | makeVoid
  | exitE
  | var (x : String)
  | quote (s : Stx)
  | begin (es : List Expr)
  | ifE (cond conseq : Expr) (alter : Option Expr)
  | cond (clauses : List (List Expr))
  | lambda (x : List String) (e : Expr)
  | defineE (var : String) (e : Expr)
  | letE (bind : List (String × Expr)) (body : Expr)
  | letrecE (bind : List (String × Expr)) (body : Expr)
  | setE (var : String) (e : Expr)
  | apply (rator : Expr) (rand : List Expr)
  | andVar (rands : List Expr)
  | orVar (rands : List Expr)
  | plusVar (rands : List Expr)
  | minusVar (rands : List Expr)
  | multVar (rands : List Expr)
  | divVar (rands : List Expr)
  | modulo (rand1 rand2 : Expr)
  | expt (rand1 rand2 : Expr)
  | less (rand1 rand2 : Expr)
  | lessEq (rand1 rand2 : Expr)
  | equal (rand1 rand2 : Expr)
  | greaterEq (rand1 rand2 : Expr)
  | greater (rand1 rand2 : Expr)
  | lessVar (rands : List Expr)
  | lessEqVar (rands : List Expr)
  | equalVar (rands : List Expr)
  | greaterEqVar (rands : List Expr)
  | greaterVar (rands : List Expr)
  | consE (rand1 rand2 : Expr)
  | carE (rand : Expr)
  | cdrE (rand : Expr)
  | setCar (rand1 rand2 : Expr)
  | setCdr (rand1 rand2 : Expr)
  | listFunc (rands : List Expr)
  | isList (rand : Expr)
  | isBoolean (rand : Expr)
  | isFixnum (rand : Expr)
  | isNull (rand : Expr)
  | isPair (rand : Expr)
  | isProcedure (rand : Expr)
  | isSymbol (rand : Expr)
  | isString (rand : Expr)
  | notE (rand : Expr)
  | isEq (rand1 rand2 : Expr)
  | display (rand : Expr)
deriving Repr

/-- Value-type tags (`v_type` field of the C++ value classes). -/
inductive VType where
  | vInt | vRational | vBool | vString | vSym | vPair | vNull | vVoid
  | vProc | vTerminate
deriving DecidableEq, Repr

/-- Runtime values.  `proc` records parameter names, body expression and the
captured environment (head-frame address).  Modelled from the spec where the
constructors live in the missing `value.hpp`: `RationalV` stores numerator
and denominator exactly as constructed (spec section 3, "always used as
constructed, not auto-reduced"). -/
inductive Value where
  | int (n : Int)
  | rat (numerator denominator : Int)
  | bool (b : Bool)
  | str (s : String)
  | sym (s : String)
  | pair (car cdr : Value)
  | nul
  | voidV
  | term
  | proc (parameters : List String) (e : Expr) (env : Option Nat)
deriving Repr

/-- The `v_type` tag of a value, mirroring the field every C++ dispatch
tests. -/
def Value.vType : Value → VType
  | .int _ => .vInt
  | .rat _ _ => .vRational
  | .bool _ => .vBool
  | .str _ => .vString
  | .sym _ => .vSym
  | .pair _ _ => .vPair
  | .nul => .vNull
  | .voidV => .vVoid
  | .term => .vTerminate
  | .proc _ _ _ => .vProc

/-- One environment frame: a single (name, value) binding plus the link to
the parent frame.  Modelled from the spec (section 3, Environment): the
implementation file of `Assoc`/`AssocList` is not under `src/`. -/
structure Frame where
  x : String
  v : Value
  next : Option Nat
deriving Repr

/-- The frame store: frames are heap nodes with shared ownership; sharing and
in-place mutation are modelled by addressing frames through this store. -/
abbrev Store := List Frame

/-- An environment is the (nullable) address of its head frame. -/
abbrev Assoc := Option Nat

/-- Allocate a new head frame.  Modelled from the spec: `extend` prepends a
frame non-destructively, returning a new head. -/
def extend (x : String) (v : Value) (e : Assoc) (s : Store) : Assoc × Store :=
  (some s.length, s ++ [⟨x, v, e⟩])

/-- Walk the frame chain looking for the first binding of `x`; gas-bounded so
the walk is total (frames always link to older frames, so a chain never
revisits a frame and `s.length + 1` steps always suffice). -/
def findGas (s : Store) (x : String) : Nat → Assoc → Option Value
  | 0, _ => none
  | _ + 1, none => none
  | g + 1, some a =>
    match s[a]? with
    | none => none
    | some f => if f.x = x then some f.v else findGas s x g f.next

/-- Environment lookup.  Modelled from the spec: first match wins, the
innermost scope shadows outer ones. -/
def find (x : String) (e : Assoc) (s : Store) : Option Value :=
  findGas s x (s.length + 1) e

/-- Gas-bounded worker for `modify`. -/
def modifyGas (x : String) (v : Value) (s : Store) : Nat → Assoc → Option Store
  | 0, _ => none
  | _ + 1, none => none
  | g + 1, some a =>
    match s[a]? with
    | none => none
    | some f =>
      if f.x = x then some (s.set a ⟨f.x, v, f.next⟩)
      else modifyGas x v s g f.next

/-- In-place overwrite of the first binding of `x`.  Modelled from the spec:
`mutate(name, value, env)` walks the chain and overwrites the value cell of
the first matching frame; returns `none` when the name is absent. -/
def modify (x : String) (v : Value) (e : Assoc) (s : Store) : Option Store :=
  modifyGas x v s (s.length + 1) e

/-- The primitive registry.  Modelled from the spec (section 6) because
`Def.hpp` is not under `src/`; the entries for `and`/`or` are added because
both active translation units dispatch on `E_AND`/`E_OR` through
`primitives`. -/
def primitives : List (String × ExprType) :=
  [("+", .ePlus), ("-", .eMinus), ("*", .eMul), ("/", .eDiv),
   ("modulo", .eModulo), ("expt", .eExpt),
   ("<", .eLt), ("<=", .eLe), ("=", .eEq), (">=", .eGe), (">", .eGt),
   ("cons", .eCons), ("car", .eCar), ("cdr", .eCdr),
   ("set-car!", .eSetcar), ("set-cdr!", .eSetcdr),
   ("list", .eList), ("list?", .eListq),
   ("boolean?", .eBoolq), ("number?", .eIntq), ("null?", .eNullq),
   ("pair?", .ePairq), ("procedure?", .eProcq), ("symbol?", .eSymbolq),
   ("string?", .eStringq),
   ("not", .eNot), ("void", .eVoid), ("display", .eDisplay),
   ("exit", .eExit), ("eq?", .eEqq), ("and", .eAnd), ("or", .eOr)]

/-- The reserved-word registry.  Modelled from the spec (section 6) because
`Def.hpp` is not under `src/`. -/
def reserved_words : List (String × ExprType) :=
  [("quote", .eQuote), ("if", .eIf), ("cond", .eCond), ("lambda", .eLambda),
   ("define", .eDefine), ("let", .eLet), ("letrec", .eLetrec),
   ("set!", .eSet), ("begin", .eBegin)]

/-- `primitives.count(x)` / `primitives[x]` as one lookup. -/
def primLookup (x : String) : Option ExprType :=
  (primitives.find? (fun p => p.1 = x)).map (fun p => p.2)

/-- `reserved_words.count(x)` / `reserved_words[x]` as one lookup. -/
def reservedLookup (x : String) : Option ExprType :=
  (reserved_words.find? (fun p => p.1 = x)).map (fun p => p.2)

/-! ## Pure operator helpers (evaluation.cpp) -/

/-- `addValues` (evaluation.cpp): 2×2 dispatch on integer/rational. -/
def addValues (v1 v2 : Value) : Except String Value :=
  match v1, v2 with
  | .int n1, .int n2 => .ok (.int (n1 + n2))
  | .rat n1 d1, .int n2 => .ok (.rat (n1 + n2 * d1) d1)
  | .int n1, .rat n2 d2 => .ok (.rat (n1 * d2 + n2) d2)
  | .rat n1 d1, .rat n2 d2 => .ok (.rat (n1 * d2 + n2 * d1) (d1 * d2))
  | _, _ => .error "Wrong typename in addition"

/-- `subtractValues` (evaluation.cpp). -/
def subtractValues (v1 v2 : Value) : Except String Value :=
  match v1, v2 with
  | .int n1, .int n2 => .ok (.int (n1 - n2))
  | .rat n1 d1, .int n2 => .ok (.rat (n1 - n2 * d1) d1)
  | .int n1, .rat n2 d2 => .ok (.rat (n1 * d2 - n2) d2)
  | .rat n1 d1, .rat n2 d2 => .ok (.rat (n1 * d2 - n2 * d1) (d1 * d2))
  | _, _ => .error "Wrong typename in subtraction"

/-- `multiplyValues` (evaluation.cpp). -/
def multiplyValues (v1 v2 : Value) : Except String Value :=
  match v1, v2 with
  | .int n1, .int n2 => .ok (.int (n1 * n2))
  | .rat n1 d1, .int n2 => .ok (.rat (n1 * n2) d1)
  | .int n1, .rat n2 d2 => .ok (.rat (n1 * n2) d2)
  | .rat n1 d1, .rat n2 d2 => .ok (.rat (n1 * n2) (d1 * d2))
  | _, _ => .error "Wrong typename in multiplication"

/-- `divideValues` (evaluation.cpp): result is always a rational, division by
zero is a runtime error. -/
def divideValues (v1 v2 : Value) : Except String Value :=
  match v1, v2 with
  | .int n1, .int n2 =>
    if n2 = 0 then .error "Division by zero" else .ok (.rat n1 n2)
  | .rat n1 d1, .int n2 =>
    if n2 = 0 then .error "Division by zero" else .ok (.rat n1 (d1 * n2))
  | .int n1, .rat n2 d2 =>
    if n2 = 0 then .error "Division by zero" else .ok (.rat (n1 * d2) n2)
  | .rat n1 d1, .rat n2 d2 =>
    if n2 = 0 then .error "Division by zero" else .ok (.rat (n1 * d2) (d1 * n2))
  | _, _ => .error "Wrong typename in division"

/-- `compareNumericValues` (evaluation.cpp, active version): three-way
comparison by cross-multiplying denominators; the `dynamic_cast` null checks
cannot fire once the tags match and are dropped. -/
def compareNumericValues (v1 v2 : Value) : Except String Int :=
  match v1, v2 with
  | .int n1, .int n2 =>
    .ok (if n1 < n2 then -1 else if n2 < n1 then 1 else 0)
  | .rat n1 d1, .int n2 =>
    .ok (if n1 < n2 * d1 then -1 else if n2 * d1 < n1 then 1 else 0)
  | .int n1, .rat n2 d2 =>
    .ok (if n1 * d2 < n2 then -1 else if n2 < n1 * d2 then 1 else 0)
  | .rat n1 d1, .rat n2 d2 =>
    .ok (if n1 * d2 < n2 * d1 then -1 else if n2 * d1 < n1 * d2 then 1 else 0)
  | _, _ => .error "Wrong typename in numeric comparison"

/-- Left fold of a binary value operation over a non-empty argument list,
mirroring the `for (size_t i = 1; ...)` accumulation loops of the variadic
arithmetic operators. -/
def foldValues (f : Value → Value → Except String Value)
    (acc : Value) : List Value → Except String Value
  | [] => .ok acc
  | v :: rest =>
    match f acc v with
    | .ok r => foldValues f r rest
    | .error e => .error e

/-- `PlusVar::evalRator`: identity 0 on no arguments, otherwise fold. -/
def PlusVar.evalRator (args : List Value) : Except String Value :=
  match args with
  | [] => .ok (.int 0)
  | a :: rest => foldValues addValues a rest

/-- `MinusVar::evalRator`: at least one argument; single argument means
`0 - x`. -/
def MinusVar.evalRator (args : List Value) : Except String Value :=
  match args with
  | [] => .error "- requires at least one argument"
  | [a] => subtractValues (.int 0) a
  | a :: rest => foldValues subtractValues a rest

/-- `MultVar::evalRator`: identity 1 on no arguments, otherwise fold. -/
def MultVar.evalRator (args : List Value) : Except String Value :=
  match args with
  | [] => .ok (.int 1)
  | a :: rest => foldValues multiplyValues a rest

/-- `DivVar::evalRator`: at least one argument; single argument means
`1 / x`. -/
def DivVar.evalRator (args : List Value) : Except String Value :=
  match args with
  | [] => .error "/ requires at least one argument"
  | [a] => divideValues (.int 1) a
  | a :: rest => foldValues divideValues a rest

/-- The adjacent-pair scan shared by the five variadic comparisons: walk the
list, return `#f` as soon as `fail` holds of a three-way comparison result,
`#t` when the walk completes. -/
def compareChain (fail : Int → Bool) : List Value → Except String Value
  | a :: b :: rest =>
    match compareNumericValues a b with
    | .error e => .error e
    | .ok c => if fail c then .ok (.bool false) else compareChain fail (b :: rest)
  | _ => .ok (.bool true)

/-- `LessVar::evalRator`: fewer than two arguments gives `#t`. -/
def LessVar.evalRator (args : List Value) : Except String Value :=
  if args.length < 2 then .ok (.bool true)
  else compareChain (fun c => decide (0 ≤ c)) args

/-- `LessEqVar::evalRator`. -/
def LessEqVar.evalRator (args : List Value) : Except String Value :=
  if args.length < 2 then .ok (.bool true)
  else compareChain (fun c => decide (0 < c)) args

/-- `EqualVar::evalRator`. -/
def EqualVar.evalRator (args : List Value) : Except String Value :=
  if args.length < 2 then .ok (.bool true)
  else compareChain (fun c => decide (c ≠ 0)) args

/-- `GreaterEqVar::evalRator`. -/
def GreaterEqVar.evalRator (args : List Value) : Except String Value :=
  if args.length < 2 then .ok (.bool true)
  else compareChain (fun c => decide (c < 0)) args

/-- `GreaterVar::evalRator`. -/
def GreaterVar.evalRator (args : List Value) : Except String Value :=
  if args.length < 2 then .ok (.bool true)
  else compareChain (fun c => decide (c ≤ 0)) args

/-- `Modulo::evalRator`: integers only; C++ `%` truncates toward zero. -/
def Modulo.evalRator (rand1 rand2 : Value) : Except String Value :=
  match rand1, rand2 with
  | .int dividend, .int divisor =>
    if divisor = 0 then .error "Division by zero"
    else .ok (.int (dividend.tmod divisor))
  | _, _ => .error "modulo is only defined for integers"

/-- C++ `INT_MAX`. -/
def intMax : Int := 2147483647

/-- C++ `INT_MIN`. -/
def intMin : Int := -2147483648

/-- The square-and-multiply loop of `Expt::evalRator`, with its overflow
checks against `INT_MAX`/`INT_MIN` (the `long long` intermediates are
modelled as unbounded integers). -/
def exptGo (res b : Int) (e : Nat) : Except String Int :=
  if h : e = 0 then .ok res
  else
    let res' := if e % 2 = 1 then res * b else res
    if e % 2 = 1 ∧ (intMax < res' ∨ res' < intMin) then
      .error "Integer overflow in expt"
    else
      let b' := b * b
      if (intMax < b' ∨ b' < intMin) ∧ 1 < e then
        .error "Integer overflow in expt"
      else exptGo res' b' (e / 2)
termination_by e
decreasing_by exact Nat.div_lt_self (Nat.pos_of_ne_zero h) (by omega)

/-- `Expt::evalRator`. -/
def Expt.evalRator (rand1 rand2 : Value) : Except String Value :=
  match rand1, rand2 with
  | .int base, .int exponent =>
    if exponent < 0 then .error "Negative exponent not supported for integers"
    else if base = 0 ∧ exponent = 0 then .error "0^0 is undefined"
    else
      match exptGo 1 base exponent.toNat with
      | .ok r => .ok (.int r)
      | .error e => .error e
  | _, _ => .error "Wrong typename"

/-- `Cons::evalRator` / `consValues`. -/
def Cons.evalRator (rand1 rand2 : Value) : Value := .pair rand1 rand2

/-- `ListFunc::evalRator`: build a null-terminated chain from the right. -/
def ListFunc.evalRator (args : List Value) : Value :=
  match args with
  | [] => .nul
  | a :: rest => .pair a (ListFunc.evalRator rest)

/-- `IsList::evalRator` on tree-shaped values: follow the cdr chain while the
value is a pair, then test for the empty list.  (The same loop on the pointer
level, where `set-cdr!` can close a cycle, is `isListGo` below.) -/
def IsList.evalRator (rand : Value) : Value :=
  match rand with
  | .pair _ d => IsList.evalRator d
  | v => .bool (decide (v.vType = VType.vNull))

/-- `Car::evalRator`. -/
def Car.evalRator (rand : Value) : Except String Value :=
  match rand with
  | .pair a _ => .ok a
  | _ => .error "Car requires a pair"

/-- `Cdr::evalRator`. -/
def Cdr.evalRator (rand : Value) : Except String Value :=
  match rand with
  | .pair _ d => .ok d
  | _ => .error "Cdr requires a pair"

/-- `SetCar::evalRator`: type check mirrored; the in-place mutation of the
pair cell is outside this tree-shaped value model (see the pair-heap model
for the mutable-cdr behaviour that matters to `list?`). -/
def SetCar.evalRator (rand1 _rand2 : Value) : Except String Value :=
  match rand1 with
  | .pair _ _ => .ok .voidV
  | _ => .error "Set-car! requires a pair"

/-- `SetCdr::evalRator`: same modelling note as `SetCar.evalRator`. -/
def SetCdr.evalRator (rand1 _rand2 : Value) : Except String Value :=
  match rand1 with
  | .pair _ _ => .ok .voidV
  | _ => .error "Set-cdr! requires a pair"

/-- `IsEq::evalRator`: by-value comparison for integers, booleans, symbols,
null and void; every remaining case compares raw pointers, which distinct
tree-shaped values never share here, so it is modelled as `false`. -/
def IsEq.evalRator (rand1 rand2 : Value) : Value :=
  match rand1, rand2 with
  | .int n1, .int n2 => .bool (decide (n1 = n2))
  | .bool b1, .bool b2 => .bool (b1 == b2)
  | .sym s1, .sym s2 => .bool (decide (s1 = s2))
  | .nul, .nul => .bool true
  | .voidV, .voidV => .bool true
  | _, _ => .bool false

/-- `IsBoolean::evalRator` (`boolean?`). -/
def IsBoolean.evalRator (rand : Value) : Value :=
  .bool (decide (rand.vType = VType.vBool))

/-- `IsFixnum::evalRator` (`number?`): the tag test is against `V_INT`
only. -/
def IsFixnum.evalRator (rand : Value) : Value :=
  .bool (decide (rand.vType = VType.vInt))

/-- `IsNull::evalRator` (`null?`). -/
def IsNull.evalRator (rand : Value) : Value :=
  .bool (decide (rand.vType = VType.vNull))

/-- `IsPair::evalRator` (`pair?`). -/
def IsPair.evalRator (rand : Value) : Value :=
  .bool (decide (rand.vType = VType.vPair))

/-- `IsProcedure::evalRator` (`procedure?`). -/
def IsProcedure.evalRator (rand : Value) : Value :=
  .bool (decide (rand.vType = VType.vProc))

/-- `IsSymbol::evalRator` (`symbol?`). -/
def IsSymbol.evalRator (rand : Value) : Value :=
  .bool (decide (rand.vType = VType.vSym))

/-- `IsString::evalRator` (`string?`). -/
def IsString.evalRator (rand : Value) : Value :=
  .bool (decide (rand.vType = VType.vString))

/-- `Not::evalRator`: negate a boolean, anything else is truthy so `not`
gives `#f`. -/
def Not.evalRator (rand : Value) : Value :=
  match rand with
  | .bool b => .bool (!b)
  | _ => .bool false

/-- `Display::evalRator`: prints and returns void; the printing side effect
is outside this embedding. -/
def Display.evalRator (_rand : Value) : Value := .voidV

mutual

/-- Structural conversion of quoted syntax into a value
(`convertSyntaxToValue`, evaluation.cpp). -/
def convertSyntaxToValue : Stx → Value
  | .num n => .int n
  | .ratS a b => .rat a b
  | .trueS => .bool true
  | .falseS => .bool false
  | .symS s => .sym s
  | .strS s => .str s
  | .list xs => convertSyntaxListToValue xs

/-- `convertSyntaxListToValue`: a quoted list becomes a null-terminated
pair chain (the C++ loop builds it from the right; the result is the same
chain). -/
def convertSyntaxListToValue : List Stx → Value
  | [] => .nul
  | x :: rest => .pair (convertSyntaxToValue x) (convertSyntaxListToValue rest)

end

/-- Truthiness: only the boolean `#f` is false (the test C++ repeats as
`v_type == V_BOOL && !b`). -/
def truthy : Value → Bool
  | .bool b => b
  | _ => true

/-! ## The evaluator -/

/-- Outcome of an evaluation or parsing step: a result, a thrown
`RuntimeError` message, or fuel exhaustion (`out` never arises in the C++
code; it marks where this embedding ran out of recursion budget). -/
inductive EvalRes (α : Type) where
  | ok (a : α)
  | err (msg : String)
  | out
deriving Repr

/-- An evaluator configuration: the produced value, the final head pointer of
the by-reference environment argument, and the final store. -/
abbrev Conf := Value × Assoc × Store

/-- Shorthand for the type of a one-level-down evaluator. -/
abbrev Evaluator := Expr → Assoc → Store → EvalRes Conf

/-- The argument-collection loop shared by `Variadic::eval` and
`Apply::eval`: evaluate each expression left to right, threading the
environment reference and the store. -/
def argsLoop (ev : Evaluator) : List Expr → Assoc → Store →
    EvalRes (List Value × Assoc × Store)
  | [], e, s => .ok ([], e, s)
  | x :: xs, e, s =>
    match ev x e s with
    | .ok (v, e1, s1) =>
      match argsLoop ev xs e1 s1 with
      | .ok (vs, e2, s2) => .ok (v :: vs, e2, s2)
      | .err m => .err m
      | .out => .out
    | .err m => .err m
    | .out => .out

/-- Sequential evaluation keeping the last value (`Begin::eval`'s loop, also
used for `cond` clause bodies). -/
def seqLast (ev : Evaluator) : Expr → List Expr → Assoc → Store → EvalRes Conf
  | x, [], e, s => ev x e s
  | x, y :: ys, e, s =>
    match ev x e s with
    | .ok (_, e1, s1) => seqLast ev y ys e1 s1
    | .err m => .err m
    | .out => .out

/-- The loop of `AndVar::eval` on a non-empty argument list: evaluate each
argument, return `#f` at the first false result; when the loop completes
(the truthy last iteration is the first equation), evaluate `rands.back()`
once more and return that value. -/
def andLoop (ev : Evaluator) : Expr → List Expr → Assoc → Store → EvalRes Conf
  | x, [], e, s =>
    match ev x e s with
    | .ok (v, e1, s1) =>
      if truthy v then ev x e1 s1 else .ok (.bool false, e1, s1)
    | .err m => .err m
    | .out => .out
  | x, y :: ys, e, s =>
    match ev x e s with
    | .ok (v, e1, s1) =>
      if truthy v then andLoop ev y ys e1 s1 else .ok (.bool false, e1, s1)
    | .err m => .err m
    | .out => .out

/-- The loop of `OrVar::eval` on a non-empty argument list: return the first
truthy value, `#f` when every argument is false. -/
def orLoop (ev : Evaluator) : Expr → List Expr → Assoc → Store → EvalRes Conf
  | x, [], e, s =>
    match ev x e s with
    | .ok (v, e1, s1) =>
      if truthy v then .ok (v, e1, s1) else .ok (.bool false, e1, s1)
    | .err m => .err m
    | .out => .out
  | x, y :: ys, e, s =>
    match ev x e s with
    | .ok (v, e1, s1) =>
      if truthy v then .ok (v, e1, s1) else orLoop ev y ys e1 s1
    | .err m => .err m
    | .out => .out

/-- `AndVar::eval`: empty `and` is `#t`, otherwise run `andLoop`. -/
def andList (ev : Evaluator) : List Expr → Assoc → Store → EvalRes Conf
  | [], e, s => .ok (.bool true, e, s)
  | x :: xs, e, s => andLoop ev x xs e s

/-- `OrVar::eval`: empty `or` is `#f`, otherwise run `orLoop`. -/
def orList (ev : Evaluator) : List Expr → Assoc → Store → EvalRes Conf
  | [], e, s => .ok (.bool false, e, s)
  | x :: xs, e, s => orLoop ev x xs e s

/-- The clause loop of `Cond::eval`: skip empty clauses; a one-element clause
returns the test value itself when truthy; otherwise a truthy test runs the
body sequentially and returns its last value; no match gives void. -/
def condLoop (ev : Evaluator) : List (List Expr) → Assoc → Store → EvalRes Conf
  | [], e, s => .ok (.voidV, e, s)
  | [] :: rest, e, s => condLoop ev rest e s
  | [t] :: rest, e, s =>
    match ev t e s with
    | .ok (tv, e1, s1) =>
      if truthy tv then .ok (tv, e1, s1) else condLoop ev rest e1 s1
    | .err m => .err m
    | .out => .out
  | (t :: b :: bs) :: rest, e, s =>
    match ev t e s with
    | .ok (tv, e1, s1) =>
      if truthy tv then seqLast ev b bs e1 s1 else condLoop ev rest e1 s1
    | .err m => .err m
    | .out => .out

/-- The binding loop of `Let::eval`: each initializer is evaluated with the
let-form's own (by-reference) environment argument `e`, never with the new
frame chain `newEnv` being built; returns the final `e`, the built `newEnv`
and the store. -/
def letLoop (ev : Evaluator) : List (String × Expr) → Assoc → Store → Assoc →
    EvalRes (Assoc × Assoc × Store)
  | [], e, s, newEnv => .ok (e, newEnv, s)
  | (x, ex) :: rest, e, s, newEnv =>
    match ev ex e s with
    | .ok (v, e1, s1) =>
      let (a2, s2) := extend x v newEnv s1
      letLoop ev rest e1 s2 a2
    | .err m => .err m
    | .out => .out

/-- Pre-binding pass of `Letrec::eval`: extend the new environment with every
bound name set to the void placeholder. -/
def preBind : List (String × Expr) → Assoc → Store → Assoc × Store
  | [], newEnv, s => (newEnv, s)
  | (x, _) :: rest, newEnv, s =>
    let (a1, s1) := extend x .voidV newEnv s
    preBind rest a1 s1

/-- Fill pass of `Letrec::eval`: evaluate each initializer in the extended
environment (passed by reference, so a `define` inside an initializer can
reassign it) and overwrite the placeholder in place. -/
def letrecFill (ev : Evaluator) : List (String × Expr) → Assoc → Store →
    EvalRes (Assoc × Store)
  | [], newEnv, s => .ok (newEnv, s)
  | (x, ex) :: rest, newEnv, s =>
    match ev ex newEnv s with
    | .ok (v, e1, s1) =>
      letrecFill ev rest e1 ((modify x v e1 s1).getD s1)
    | .err m => .err m
    | .out => .out

/-- Parameter-binding loop of `Apply::eval`: extend the procedure's captured
environment with each parameter bound to its argument value, left to
right. -/
def extendList : List String → List Value → Assoc → Store → Assoc × Store
  | [], _, e, s => (e, s)
  | _, [], e, s => (e, s)
  | x :: xs, v :: vs, e, s =>
    let (e1, s1) := extend x v e s
    extendList xs vs e1 s1

/-- The lazily materialized primitive table of `Var::eval` (active version):
each primitive becomes a `Procedure` wrapping its operator node with fixed
placeholder parameter names. -/
def primitiveMap : ExprType → Option (Expr × List String)
  | .eVoid => some (.makeVoid, [])
  | .eExit => some (.exitE, [])
  | .eBoolq => some (.isBoolean (.var "parm"), ["parm"])
  | .eIntq => some (.isFixnum (.var "parm"), ["parm"])
  | .eNullq => some (.isNull (.var "parm"), ["parm"])
  | .ePairq => some (.isPair (.var "parm"), ["parm"])
  | .eProcq => some (.isProcedure (.var "parm"), ["parm"])
  | .eSymbolq => some (.isSymbol (.var "parm"), ["parm"])
  | .eStringq => some (.isString (.var "parm"), ["parm"])
  | .eListq => some (.isList (.var "parm"), ["parm"])
  | .eDisplay => some (.display (.var "parm"), ["parm"])
  | .ePlus => some (.plusVar [], [])
  | .eMinus => some (.minusVar [], [])
  | .eMul => some (.multVar [], [])
  | .eDiv => some (.divVar [], [])
  | .eModulo => some (.modulo (.var "parm1") (.var "parm2"), ["parm1", "parm2"])
  | .eExpt => some (.expt (.var "parm1") (.var "parm2"), ["parm1", "parm2"])
  | .eEqq => some (.isEq (.var "parm1") (.var "parm2"), ["parm1", "parm2"])
  | .eLt => some (.lessVar [], [])
  | .eLe => some (.lessEqVar [], [])
  | .eEq => some (.equalVar [], [])
  | .eGe => some (.greaterEqVar [], [])
  | .eGt => some (.greaterVar [], [])
  | .eCons => some (.consE (.var "parm1") (.var "parm2"), ["parm1", "parm2"])
  | .eCar => some (.carE (.var "parm"), ["parm"])
  | .eCdr => some (.cdrE (.var "parm"), ["parm"])
  | .eList => some (.listFunc [], [])
  | .eSetcar => some (.setCar (.var "parm1") (.var "parm2"), ["parm1", "parm2"])
  | .eSetcdr => some (.setCdr (.var "parm1") (.var "parm2"), ["parm1", "parm2"])
  | .eNot => some (.notE (.var "parm"), ["parm"])
  | .eAnd => some (.andVar [], [])
  | .eOr => some (.orVar [], [])
  | _ => none

/-- Lift a pure `evalRator` result into the evaluator's result type. -/
def pureStep (r : Except String Value) (e : Assoc) (s : Store) : EvalRes Conf :=
  match r with
  | .ok v => .ok (v, e, s)
  | .error m => .err m

/-- Evaluate one operand, then apply a fallible unary operator
(`Unary::eval`). -/
def unaryStep (ev : Evaluator) (r : Expr) (e : Assoc) (s : Store)
    (f : Value → Except String Value) : EvalRes Conf :=
  match ev r e s with
  | .ok (v, e1, s1) => pureStep (f v) e1 s1
  | .err m => .err m
  | .out => .out

/-- Evaluate one operand, then apply a total unary operator. -/
def unaryStepT (ev : Evaluator) (r : Expr) (e : Assoc) (s : Store)
    (f : Value → Value) : EvalRes Conf :=
  match ev r e s with
  | .ok (v, e1, s1) => .ok (f v, e1, s1)
  | .err m => .err m
  | .out => .out

/-- Evaluate two operands left to right, then apply a fallible binary
operator (`Binary::eval`; C++ leaves the order of the two `eval` calls in
the `evalRator(rand1->eval(e), rand2->eval(e))` argument list unspecified —
left-to-right is taken, matching the spec). -/
def binaryStep (ev : Evaluator) (r1 r2 : Expr) (e : Assoc) (s : Store)
    (f : Value → Value → Except String Value) : EvalRes Conf :=
  match ev r1 e s with
  | .ok (v1, e1, s1) =>
    match ev r2 e1 s1 with
    | .ok (v2, e2, s2) => pureStep (f v1 v2) e2 s2
    | .err m => .err m
    | .out => .out
  | .err m => .err m
  | .out => .out

/-- Evaluate two operands left to right, then apply a total binary
operator. -/
def binaryStepT (ev : Evaluator) (r1 r2 : Expr) (e : Assoc) (s : Store)
    (f : Value → Value → Value) : EvalRes Conf :=
  match ev r1 e s with
  | .ok (v1, e1, s1) =>
    match ev r2 e1 s1 with
    | .ok (v2, e2, s2) => .ok (f v1 v2, e2, s2)
    | .err m => .err m
    | .out => .out
  | .err m => .err m
  | .out => .out

/-- Evaluate a variadic node's operands, then apply a fallible list
operator (`Variadic::eval`). -/
def variadicStep (ev : Evaluator) (rs : List Expr) (e : Assoc) (s : Store)
    (f : List Value → Except String Value) : EvalRes Conf :=
  match argsLoop ev rs e s with
  | .ok (vs, e1, s1) => pureStep (f vs) e1 s1
  | .err m => .err m
  | .out => .out

/-- The walk of `Set::eval`: find the first frame binding `x` reachable from
`e` and overwrite its value cell in place (gas-bounded like `find`). -/
def setWalkGas (x : String) (v : Value) (s : Store) : Nat → Assoc → Option Store
  | 0, _ => none
  | _ + 1, none => none
  | g + 1, some a =>
    match s[a]? with
    | none => none
    | some f =>
      if f.x = x then some (s.set a ⟨f.x, v, f.next⟩)
      else setWalkGas x v s g f.next

/-- Entry point for `Set::eval`'s environment walk. -/
def setWalk (x : String) (v : Value) (e : Assoc) (s : Store) : Option Store :=
  setWalkGas x v s (s.length + 1) e

/-- The fuel-indexed evaluator: one constructor case per `eval` method of
evaluation.cpp (active version).  A successful step returns the value, the
final state of the by-reference environment argument, and the final store. -/
def evalFuel : Nat → Expr → Assoc → Store → EvalRes Conf
  | 0, _, _, _ => .out
  | n + 1, ex, e, s =>
    match ex with
    | .fixnum k => .ok (.int k, e, s)
    | .rationalNum a b => .ok (.rat a b, e, s)
    | .stringExpr t => .ok (.str t, e, s)
    | .trueE => .ok (.bool true, e, s)
    | .falseE => .ok (.bool false, e, s)
    | .makeVoid => .ok (.voidV, e, s)
    | .exitE => .ok (.term, e, s)
    | .var x =>
      match (primLookup x).bind primitiveMap with
      | some pr => .ok (.proc pr.2 pr.1 e, e, s)
      | none =>
        match e with
        | none => .err "Null environment"
        | some _ =>
          match find x e s with
          | some v => .ok (v, e, s)
          | none => .err ("Undefined variable: " ++ x)
    | .quote stx => .ok (convertSyntaxToValue stx, e, s)
    | .begin es =>
      match es with
      | [] => .ok (.voidV, e, s)
      | x :: xs => seqLast (evalFuel n) x xs e s
    | .ifE c t a =>
      match evalFuel n c e s with
      | .ok (tv, e1, s1) =>
        if truthy tv then evalFuel n t e1 s1
        else
          match a with
          | some alt => evalFuel n alt e1 s1
          | none => .ok (.voidV, e1, s1)
      | .err m => .err m
      | .out => .out
    | .cond clauses => condLoop (evalFuel n) clauses e s
    | .lambda ps body => .ok (.proc ps body e, e, s)
    | .defineE x ex' =>
      let (e1, s1) := extend x .voidV e s
      match evalFuel n ex' e1 s1 with
      | .ok (v, e2, s2) => .ok (.voidV, e2, (modify x v e2 s2).getD s2)
      | .err m => .err m
      | .out => .out
    | .letE binds body =>
      match letLoop (evalFuel n) binds e s e with
      | .ok (e1, newEnv, s1) =>
        match evalFuel n body newEnv s1 with
        | .ok (v, _, s2) => .ok (v, e1, s2)
        | .err m => .err m
        | .out => .out
      | .err m => .err m
      | .out => .out
    | .letrecE binds body =>
      let (a1, s1) := preBind binds e s
      match letrecFill (evalFuel n) binds a1 s1 with
      | .ok (a2, s2) =>
        match evalFuel n body a2 s2 with
        | .ok (v, _, s3) => .ok (v, e, s3)
        | .err m => .err m
        | .out => .out
      | .err m => .err m
      | .out => .out
    | .setE x ex' =>
      match evalFuel n ex' e s with
      | .ok (v, e1, s1) =>
        match setWalk x v e1 s1 with
        | some s2 => .ok (.voidV, e1, s2)
        | none => .err ("set!: cannot set variable before definition: " ++ x)
      | .err m => .err m
      | .out => .out
    | .apply rator rands =>
      match evalFuel n rator e s with
      | .ok (pv, e1, s1) =>
        match pv with
        | .proc params body ce =>
          if params.length ≠ rands.length then .err "Wrong number of arguments"
          else
            match argsLoop (evalFuel n) rands e1 s1 with
            | .ok (args, e2, s2) =>
              if args.length ≠ params.length then .err "Wrong number of arguments"
              else
                let (pe, s3) := extendList params args ce s2
                match evalFuel n body pe s3 with
                | .ok (v, _, s4) => .ok (v, e2, s4)
                | .err m => .err m
                | .out => .out
            | .err m => .err m
            | .out => .out
        | _ => .err "Attempt to apply a non-procedure"
      | .err m => .err m
      | .out => .out
    | .andVar rands => andList (evalFuel n) rands e s
    | .orVar rands => orList (evalFuel n) rands e s
    | .plusVar rs => variadicStep (evalFuel n) rs e s PlusVar.evalRator
    | .minusVar rs => variadicStep (evalFuel n) rs e s MinusVar.evalRator
    | .multVar rs => variadicStep (evalFuel n) rs e s MultVar.evalRator
    | .divVar rs => variadicStep (evalFuel n) rs e s DivVar.evalRator
    | .modulo r1 r2 => binaryStep (evalFuel n) r1 r2 e s Modulo.evalRator
    | .expt r1 r2 => binaryStep (evalFuel n) r1 r2 e s Expt.evalRator
    | .less r1 r2 =>
      binaryStep (evalFuel n) r1 r2 e s
        (fun a b => (compareNumericValues a b).map (fun c => .bool (decide (c < 0))))
    | .lessEq r1 r2 =>
      binaryStep (evalFuel n) r1 r2 e s
        (fun a b => (compareNumericValues a b).map (fun c => .bool (decide (c ≤ 0))))
    | .equal r1 r2 =>
      binaryStep (evalFuel n) r1 r2 e s
        (fun a b => (compareNumericValues a b).map (fun c => .bool (decide (c = 0))))
    | .greaterEq r1 r2 =>
      binaryStep (evalFuel n) r1 r2 e s
        (fun a b => (compareNumericValues a b).map (fun c => .bool (decide (0 ≤ c))))
    | .greater r1 r2 =>
      binaryStep (evalFuel n) r1 r2 e s
        (fun a b => (compareNumericValues a b).map (fun c => .bool (decide (0 < c))))
    | .lessVar rs => variadicStep (evalFuel n) rs e s LessVar.evalRator
    | .lessEqVar rs => variadicStep (evalFuel n) rs e s LessEqVar.evalRator
    | .equalVar rs => variadicStep (evalFuel n) rs e s EqualVar.evalRator
    | .greaterEqVar rs => variadicStep (evalFuel n) rs e s GreaterEqVar.evalRator
    | .greaterVar rs => variadicStep (evalFuel n) rs e s GreaterVar.evalRator
    | .consE r1 r2 => binaryStepT (evalFuel n) r1 r2 e s Cons.evalRator
    | .carE r => unaryStep (evalFuel n) r e s Car.evalRator
    | .cdrE r => unaryStep (evalFuel n) r e s Cdr.evalRator
    | .setCar r1 r2 => binaryStep (evalFuel n) r1 r2 e s SetCar.evalRator
    | .setCdr r1 r2 => binaryStep (evalFuel n) r1 r2 e s SetCdr.evalRator
    | .listFunc rs =>
      variadicStep (evalFuel n) rs e s (fun vs => .ok (ListFunc.evalRator vs))
    | .isList r => unaryStepT (evalFuel n) r e s IsList.evalRator
    | .isBoolean r => unaryStepT (evalFuel n) r e s IsBoolean.evalRator
    | .isFixnum r => unaryStepT (evalFuel n) r e s IsFixnum.evalRator
    | .isNull r => unaryStepT (evalFuel n) r e s IsNull.evalRator
    | .isPair r => unaryStepT (evalFuel n) r e s IsPair.evalRator
    | .isProcedure r => unaryStepT (evalFuel n) r e s IsProcedure.evalRator
    | .isSymbol r => unaryStepT (evalFuel n) r e s IsSymbol.evalRator
    | .isString r => unaryStepT (evalFuel n) r e s IsString.evalRator
    | .notE r => unaryStepT (evalFuel n) r e s Not.evalRator
    | .isEq r1 r2 => binaryStepT (evalFuel n) r1 r2 e s IsEq.evalRator
    | .display r => unaryStepT (evalFuel n) r e s Display.evalRator

/-! ## The parser (`List::parse` and the atom `parse` methods, parser.cpp,
active version) -/

/-- Shorthand for the type of a one-level-down parser. -/
abbrev Parser := Stx → EvalRes Expr

/-- Parse every element of a list left to right (the
`for (size_t i = 1; ...) parameters.push_back(stxs[i]->parse(env))`
loops). -/
def parseArgsLoop (p : Parser) : List Stx → EvalRes (List Expr)
  | [] => .ok []
  | x :: xs =>
    match p x with
    | .ok ex =>
      match parseArgsLoop p xs with
      | .ok es => .ok (ex :: es)
      | .err m => .err m
      | .out => .out
    | .err m => .err m
    | .out => .out

/-- Extract symbol names from a parameter list, failing with `emsg` on any
non-symbol element. -/
def paramNames (emsg : String) : List Stx → EvalRes (List String)
  | [] => .ok []
  | .symS x :: rest =>
    match paramNames emsg rest with
    | .ok xs => .ok (x :: xs)
    | .err m => .err m
    | .out => .out
  | _ :: _ => .err emsg

/-- Extract `let`/`letrec` bindings: each element must be a two-element list
whose head is a symbol; the value expression is parsed with `p`. -/
def letBindsLoop (p : Parser) (pairMsg varMsg : String) :
    List Stx → EvalRes (List (String × Expr))
  | [] => .ok []
  | .list [.symS x, vstx] :: rest =>
    match p vstx with
    | .ok vexpr =>
      match letBindsLoop p pairMsg varMsg rest with
      | .ok bs => .ok ((x, vexpr) :: bs)
      | .err m => .err m
      | .out => .out
    | .err m => .err m
    | .out => .out
  | .list [_, _] :: _ => .err varMsg
  | _ :: _ => .err pairMsg

/-- Extract `cond` clauses: each sub-form must itself be a list, every
element of which is parsed with `p`. -/
def condClausesLoop (p : Parser) : List Stx → EvalRes (List (List Expr))
  | [] => .ok []
  | .list cs :: rest =>
    match parseArgsLoop p cs with
    | .ok es =>
      match condClausesLoop p rest with
      | .ok cls => .ok (es :: cls)
      | .err m => .err m
      | .out => .out
    | .err m => .err m
    | .out => .out
  | _ :: _ => .err "cond clause must be a list"

/-- Wrap multiple body forms in `Begin`; a single body form is used
directly. -/
def mkBody : List Expr → Expr
  | [es] => es
  | es => .begin es

/-- Dispatch for a reserved-word form, after the eager pre-parse of every
sub-form into `parameters` has succeeded.  `tl` is the unparsed tail of the
form, `total` its total length (`stxs.size()`). -/
def reservedDispatch (p : Parser) (op : String) (rw : ExprType)
    (parameters : List Expr) (tl : List Stx) : EvalRes Expr :=
  match rw with
  | .eBegin => .ok (.begin parameters)
  | .eQuote =>
    if parameters.length ≠ 1 then .err "Wrong number of arguments for quote"
    else
      match tl with
      | [q] => .ok (.quote q)
      | _ => .err "Wrong number of arguments for quote"
  | .eIf =>
    match parameters with
    | [c, t] => .ok (.ifE c t none)
    | [c, t, a] => .ok (.ifE c t (some a))
    | _ => .err "Wrong number of arguments for if"
  | .eCond =>
    match condClausesLoop p tl with
    | .ok cls => .ok (.cond cls)
    | .err m => .err m
    | .out => .out
  | .eLambda =>
    if parameters.length < 2 then .err "Wrong number of arguments for lambda"
    else
      match tl with
      | [] => .err "Wrong number of arguments for lambda"
      | pstx :: bodyStx =>
        match pstx with
        | .list ps =>
          match paramNames "Lambda parameter must be a symbol" ps with
          | .ok names =>
            if bodyStx.isEmpty then .err "Lambda must have a body"
            else
              match parseArgsLoop p bodyStx with
              | .ok bes => .ok (.lambda names (mkBody bes))
              | .err m => .err m
              | .out => .out
          | .err m => .err m
          | .out => .out
        | _ => .err "Lambda parameters must be a list"
  | .eDefine =>
    if parameters.length < 1 then .err "Wrong number of arguments for define"
    else
      match tl with
      | [] => .err "Wrong number of arguments for define"
      | d1 :: drest =>
        let plainDefine : EvalRes Expr :=
          match parameters with
          | [_, p2] =>
            match d1 with
            | .symS v => .ok (.defineE v p2)
            | _ => .err "Define variable must be a symbol"
          | _ => .err "Wrong number of arguments for define"
        match d1 with
        | .list (.symS fname :: restP) =>
          match paramNames "Function parameter must be a symbol" restP with
          | .ok names =>
            match parseArgsLoop p drest with
            | .ok bes => .ok (.defineE fname (.lambda names (mkBody bes)))
            | .err m => .err m
            | .out => .out
          | .err m => .err m
          | .out => .out
        | _ => plainDefine
  | .eLet =>
    if parameters.length < 2 then .err "Wrong number of arguments for let"
    else
      match tl with
      | [] => .err "Wrong number of arguments for let"
      | bstx :: bodyStx =>
        match bstx with
        | .list bs =>
          match letBindsLoop p "Let binding must be a pair (variable value)"
              "Let variable must be a symbol" bs with
          | .ok binds =>
            if bodyStx.isEmpty then .err "Let must have a body"
            else
              match parseArgsLoop p bodyStx with
              | .ok bes => .ok (.letE binds (mkBody bes))
              | .err m => .err m
              | .out => .out
          | .err m => .err m
          | .out => .out
        | _ => .err "Let bindings must be a list"
  | .eLetrec =>
    if parameters.length < 2 then .err "Wrong number of arguments for letrec"
    else
      match tl with
      | [] => .err "Wrong number of arguments for letrec"
      | bstx :: bodyStx =>
        match bstx with
        | .list bs =>
          match letBindsLoop p "Letrec binding must be a pair (variable value)"
              "Letrec variable must be a symbol" bs with
          | .ok binds =>
            if bodyStx.isEmpty then .err "Letrec must have a body"
            else
              match parseArgsLoop p bodyStx with
              | .ok bes => .ok (.letrecE binds (mkBody bes))
              | .err m => .err m
              | .out => .out
          | .err m => .err m
          | .out => .out
        | _ => .err "Letrec bindings must be a list"
  | .eSet =>
    match parameters with
    | [_, p2] =>
      match tl with
      | .symS v :: _ => .ok (.setE v p2)
      | _ => .err "Set! variable must be a symbol"
    | _ => .err "Wrong number of arguments for set!"
  | _ => .err ("Unknown reserved word: " ++ op)

/-- Dispatch for a primitive-operator form, after the eager pre-parse of
every sub-form into `parameters` has succeeded.  Primitive names without an
explicit case (`void`, `display`, `exit`, `expt`, `eq?`) fall to the final
branch, which re-parses the tail and builds an application of the
variable. -/
def primitiveDispatch (p : Parser) (op : String) (pt : ExprType)
    (parameters : List Expr) (tl : List Stx) : EvalRes Expr :=
  match pt with
  | .ePlus => .ok (.plusVar parameters)
  | .eMinus => .ok (.minusVar parameters)
  | .eMul => .ok (.multVar parameters)
  | .eDiv => .ok (.divVar parameters)
  | .eModulo =>
    match parameters with
    | [a, b] => .ok (.modulo a b)
    | _ => .err "Wrong number of arguments for modulo"
  | .eList => .ok (.listFunc parameters)
  | .eLt =>
    match parameters with
    | [a, b] => .ok (.less a b)
    | _ => .ok (.lessVar parameters)
  | .eLe =>
    match parameters with
    | [a, b] => .ok (.lessEq a b)
    | _ => .ok (.lessEqVar parameters)
  | .eEq =>
    match parameters with
    | [a, b] => .ok (.equal a b)
    | _ => .ok (.equalVar parameters)
  | .eGe =>
    match parameters with
    | [a, b] => .ok (.greaterEq a b)
    | _ => .ok (.greaterEqVar parameters)
  | .eGt =>
    match parameters with
    | [a, b] => .ok (.greater a b)
    | _ => .ok (.greaterVar parameters)
  | .eCons =>
    match parameters with
    | [a, b] => .ok (.consE a b)
    | _ => .err "Wrong number of arguments for cons"
  | .eCar =>
    match parameters with
    | [a] => .ok (.carE a)
    | _ => .err "Wrong number of arguments for car"
  | .eCdr =>
    match parameters with
    | [a] => .ok (.cdrE a)
    | _ => .err "Wrong number of arguments for cdr"
  | .eSetcar =>
    match parameters with
    | [a, b] => .ok (.setCar a b)
    | _ => .err "Wrong number of arguments for set-car!"
  | .eSetcdr =>
    match parameters with
    | [a, b] => .ok (.setCdr a b)
    | _ => .err "Wrong number of arguments for set-cdr!"
  | .eNot =>
    match parameters with
    | [a] => .ok (.notE a)
    | _ => .err "Wrong number of arguments for not"
  | .eAnd => .ok (.andVar parameters)
  | .eOr => .ok (.orVar parameters)
  | .eBoolq =>
    match parameters with
    | [a] => .ok (.isBoolean a)
    | _ => .err "Wrong number of arguments for boolean?"
  | .eIntq =>
    match parameters with
    | [a] => .ok (.isFixnum a)
    | _ => .err "Wrong number of arguments for number?"
  | .eNullq =>
    match parameters with
    | [a] => .ok (.isNull a)
    | _ => .err "Wrong number of arguments for null?"
  | .ePairq =>
    match parameters with
    | [a] => .ok (.isPair a)
    | _ => .err "Wrong number of arguments for pair?"
  | .eProcq =>
    match parameters with
    | [a] => .ok (.isProcedure a)
    | _ => .err "Wrong number of arguments for procedure?"
  | .eSymbolq =>
    match parameters with
    | [a] => .ok (.isSymbol a)
    | _ => .err "Wrong number of arguments for symbol?"
  | .eStringq =>
    match parameters with
    | [a] => .ok (.isString a)
    | _ => .err "Wrong number of arguments for string?"
  | .eListq =>
    match parameters with
    | [a] => .ok (.isList a)
    | _ => .err "Wrong number of arguments for list?"
  | _ =>
    match parseArgsLoop p tl with
    | .ok args => .ok (.apply (.var op) args)
    | .err m => .err m
    | .out => .out

/-- The fuel-indexed parser, `parse(syntax, env) -> Expression`.  The
environment (and the store backing it) is consulted only through `find`, for
the shadowing check; it is never extended — in particular the lambda,
function-define, let and letrec builders parse their bodies in the unchanged
environment. -/
def parseStx : Nat → Stx → Assoc → Store → EvalRes Expr
  | 0, _, _, _ => .out
  | n + 1, stx, env, s =>
    match stx with
    | .num k => .ok (.fixnum k)
    | .ratS a b => .ok (.rationalNum a b)
    | .symS x => .ok (.var x)
    | .strS t => .ok (.stringExpr t)
    | .trueS => .ok .trueE
    | .falseS => .ok .falseE
    | .list xs =>
      match xs with
      | [] => .ok (.quote (.list []))
      | hd :: tl =>
        match hd with
        | .symS op =>
          if (find op env s).isSome then
            match parseArgsLoop (fun t => parseStx n t env s) tl with
            | .ok args => .ok (.apply (.var op) args)
            | .err m => .err m
            | .out => .out
          else
            match reservedLookup op with
            | some rw =>
              match parseArgsLoop (fun t => parseStx n t env s) tl with
              | .ok parameters =>
                reservedDispatch (fun t => parseStx n t env s) op rw parameters tl
              | .err m => .err m
              | .out => .out
            | none =>
              match primLookup op with
              | some pt =>
                match parseArgsLoop (fun t => parseStx n t env s) tl with
                | .ok parameters =>
                  primitiveDispatch (fun t => parseStx n t env s) op pt parameters tl
                | .err m => .err m
                | .out => .out
              | none =>
                match parseArgsLoop (fun t => parseStx n t env s) tl with
                | .ok args => .ok (.apply (.var op) args)
                | .err m => .err m
                | .out => .out
        | _ =>
          match parseArgsLoop (fun t => parseStx n t env s) tl with
          | .ok args =>
            match parseStx n hd env s with
            | .ok r => .ok (.apply r args)
            | .err m => .err m
            | .out => .out
          | .err m => .err m
          | .out => .out

/-! ## Pointer-level model of the `list?` traversal

`IsList::evalRator` walks `current = p->cdr` while `current` is a pair.  On
the pointer level, where `set-cdr!` mutates a shared cell, a cdr edge can
point back to an earlier cell; the walk is modelled on an explicit heap of
pair cells. -/

/-- A pointer-level value as seen by the `list?` loop: a reference to a pair
cell, the null value, or any other non-pair atom. -/
inductive HeapVal where
  | ref (a : Nat)
  | nullv
  | atom
deriving DecidableEq, Repr

/-- A pair cell: the mutable car and cdr fields. -/
structure PairCell where
  car : HeapVal
  cdr : HeapVal
deriving DecidableEq, Repr

/-- The pair heap. -/
abbrev PairHeap := List PairCell

/-- The `while (current->v_type == V_PAIR) current = p->cdr;` loop of
`IsList::evalRator`, indexed by fuel: `some b` is the boolean the C++ code
returns after the loop exits, `none` means the loop is still running when
the fuel runs out (a dangling reference also gives `none`; well-formed heaps
have none). -/
def isListGo (h : PairHeap) : Nat → HeapVal → Option Bool
  | 0, _ => none
  | g + 1, v =>
    match v with
    | .ref a =>
      match h[a]? with
      | some c => isListGo h g c.cdr
      | none => none
    | .nullv => some true
    | .atom => some false

/-- The `list?` loop never produces an answer on this chain, whatever the
fuel: the C++ `while` loop runs forever. -/
def IsListDiverges (h : PairHeap) (v : HeapVal) : Prop :=
  ∀ fuel, isListGo h fuel v = none

/-- The heap after `(set-cdr! p p)` on `p = (cons 1 2)`: one pair cell whose
cdr points to itself. -/
def cyclicHeap : PairHeap := [⟨.atom, .ref 0⟩]

/-- A two-cell proper list `(1 2)`: cell 0's cdr points to cell 1, whose cdr
is null. -/
def properHeap : PairHeap := [⟨.atom, .ref 1⟩, ⟨.atom, .nullv⟩]

/-- The improper chain `(cons 1 2)`: a single cell whose cdr is a non-null
atom. -/
def improperHeap : PairHeap := [⟨.atom, .atom⟩]

/-! ## Specification-side helper functions

These restate, independently of the evaluator's own loops, the behaviours
the claims talk about; the theorems below connect them to the embedded
code. -/

/-- A value of the numeric tower (integer or rational). -/
def isNumeric : Value → Bool
  | .int _ => true
  | .rat _ _ => true
  | _ => false

/-- Total three-way numeric comparison by cross-multiplication (the value
`compareNumericValues` computes on numeric operands). -/
def cmpNum : Value → Value → Int
  | .int n1, .int n2 => if n1 < n2 then -1 else if n2 < n1 then 1 else 0
  | .rat n1 d1, .int n2 =>
    if n1 < n2 * d1 then -1 else if n2 * d1 < n1 then 1 else 0
  | .int n1, .rat n2 d2 =>
    if n1 * d2 < n2 then -1 else if n2 < n1 * d2 then 1 else 0
  | .rat n1 d1, .rat n2 d2 =>
    if n1 * d2 < n2 * d1 then -1 else if n2 * d1 < n1 * d2 then 1 else 0
  | _, _ => 0

/-- The relation `p` holds across every adjacent pair of the list. -/
def pairwiseHolds (p : Int → Bool) : List Value → Bool
  | a :: b :: t => p (cmpNum a b) && pairwiseHolds p (b :: t)
  | _ => true

/-- Sequential left-to-right evaluation in which every expression evaluates
successfully to a truthy value exactly once; returns the final environment
head and store. -/
def seqTruthyRun (ev : Evaluator) : List Expr → Assoc → Store →
    Option (Assoc × Store)
  | [], e, s => some (e, s)
  | x :: xs, e, s =>
    match ev x e s with
    | .ok (v, e1, s1) =>
      if truthy v then seqTruthyRun ev xs e1 s1 else none
    | _ => none

/-- Sequential left-to-right evaluation in which every expression evaluates
successfully to the boolean `#f` exactly once. -/
def seqFalseRun (ev : Evaluator) : List Expr → Assoc → Store →
    Option (Assoc × Store)
  | [], e, s => some (e, s)
  | x :: xs, e, s =>
    match ev x e s with
    | .ok (.bool false, e1, s1) => seqFalseRun ev xs e1 s1
    | _ => none

/-! ## Helper lemmas -/

lemma argsLoop_length (ev : Evaluator) (es : List Expr) :
    ∀ (e : Assoc) (s : Store) (vs : List Value) (e2 : Assoc) (s2 : Store),
      argsLoop ev es e s = .ok (vs, e2, s2) → vs.length = es.length := by
  induction es with
  | nil =>
    intro e s vs e2 s2 h
    simp only [argsLoop] at h
    cases h
    rfl
  | cons x xs ih =>
    intro e s vs e2 s2 h
    simp only [argsLoop] at h
    split at h
    next v e1 s1 hx =>
      split at h
      next vs' e2' s2' hr =>
        cases h
        simpa using ih _ _ _ _ _ hr
      next => cases h
      next => cases h
    next => cases h
    next => cases h

lemma parseArgsLoop_length (p : Parser) (xs : List Stx) :
    ∀ (es : List Expr), parseArgsLoop p xs = .ok es → es.length = xs.length := by
  induction xs with
  | nil =>
    intro es h
    simp only [parseArgsLoop] at h
    cases h
    rfl
  | cons x rest ih =>
    intro es h
    simp only [parseArgsLoop] at h
    split at h
    next ex hx =>
      split at h
      next es' hr =>
        cases h
        simpa using ih es' hr
      next => cases h
      next => cases h
    next => cases h
    next => cases h

lemma compareNumericValues_eq_cmpNum (v w : Value)
    (hv : isNumeric v = true) (hw : isNumeric w = true) :
    compareNumericValues v w = .ok (cmpNum v w) := by
  cases v <;> cases w <;> simp_all [isNumeric, compareNumericValues, cmpNum]

lemma compareChain_eq (fail : Int → Bool) :
    ∀ l : List Value, (∀ v ∈ l, isNumeric v = true) →
      compareChain fail l = .ok (.bool (pairwiseHolds (fun c => !(fail c)) l))
  | [], _ => by simp [compareChain, pairwiseHolds]
  | [a], _ => by simp [compareChain, pairwiseHolds]
  | a :: b :: t, h => by
    have hab := compareNumericValues_eq_cmpNum a b (h a (by simp)) (h b (by simp))
    have ih := compareChain_eq fail (b :: t)
      (fun v hv => h v (List.mem_cons_of_mem a hv))
    by_cases hf : fail (cmpNum a b) = true
    · simp [compareChain, hab, hf, pairwiseHolds]
    · simp only [Bool.not_eq_true] at hf
      simp [compareChain, hab, hf, pairwiseHolds, ih]

lemma bnot_le_zero (c : Int) : (!(decide (0 ≤ c))) = decide (c < 0) := by
  rw [← decide_not]
  exact decide_eq_decide.mpr (by omega)

lemma bnot_lt_zero (c : Int) : (!(decide (0 < c))) = decide (c ≤ 0) := by
  rw [← decide_not]
  exact decide_eq_decide.mpr (by omega)

lemma bnot_ne_zero (c : Int) : (!(decide (c ≠ 0))) = decide (c = 0) := by
  rw [← decide_not]
  exact decide_eq_decide.mpr (by omega)

lemma bnot_zero_gt (c : Int) : (!(decide (c < 0))) = decide (0 ≤ c) := by
  rw [← decide_not]
  exact decide_eq_decide.mpr (by omega)

lemma bnot_zero_ge (c : Int) : (!(decide (c ≤ 0))) = decide (0 < c) := by
  rw [← decide_not]
  exact decide_eq_decide.mpr (by omega)

lemma pairwiseHolds_congr (p q : Int → Bool) (hpq : ∀ c, p c = q c) :
    ∀ l : List Value, pairwiseHolds p l = pairwiseHolds q l
  | [] => by simp [pairwiseHolds]
  | [_] => by simp [pairwiseHolds]
  | a :: b :: t => by
    simp [pairwiseHolds, hpq, pairwiseHolds_congr p q hpq (b :: t)]

/-! ## Claims -/

/-- C2: the claim says `list?` terminates on every value, returning `#f` on
a cyclic cdr chain and `#t` on a null-terminated chain of pairs.  On the
heap after `(set-cdr! p p)` the traversal of `IsList::evalRator` never
produces an answer at any fuel — the C++ `while` loop runs forever — while
it does answer `#t` on a proper chain and `#f` on an improper one. -/
theorem claim2_isList_cycle_loops_forever :
    IsListDiverges cyclicHeap (.ref 0) ∧
    isListGo properHeap 3 (.ref 0) = some true ∧
    isListGo improperHeap 2 (.ref 0) = some false ∧
    (∀ v w : Value, IsList.evalRator (.pair v (.pair w .nul)) = .bool true) := by
  refine ⟨?_, rfl, rfl, fun v w => rfl⟩
  intro fuel
  induction fuel with
  | zero => rfl
  | succ g ih => simpa [isListGo, cyclicHeap] using ih

/-- C10: `number?` tests the `V_INT` tag only, so it answers `#t` exactly on
`Integer` values and `#f` on every other constructor — in particular on
every `Rational`, such as the value `(/ 1 2)` produces. -/
theorem claim10_numberq_is_integer_only :
    (∀ n : Int, IsFixnum.evalRator (.int n) = .bool true) ∧
    (∀ a b : Int, IsFixnum.evalRator (.rat a b) = .bool false) ∧
    (∀ b : Bool, IsFixnum.evalRator (.bool b) = .bool false) ∧
    (∀ t : String, IsFixnum.evalRator (.str t) = .bool false) ∧
    (∀ t : String, IsFixnum.evalRator (.sym t) = .bool false) ∧
    (∀ a d : Value, IsFixnum.evalRator (.pair a d) = .bool false) ∧
    IsFixnum.evalRator .nul = .bool false ∧
    IsFixnum.evalRator .voidV = .bool false ∧
    IsFixnum.evalRator .term = .bool false ∧
    (∀ (ps : List String) (body : Expr) (env : Assoc),
      IsFixnum.evalRator (.proc ps body env) = .bool false) ∧
    DivVar.evalRator [.int 1, .int 2] = .ok (.rat 1 2) ∧
    IsFixnum.evalRator (.rat 1 2) = .bool false :=
  ⟨fun _ => rfl, fun _ _ => rfl, fun _ => rfl, fun _ => rfl, fun _ => rfl,
   fun _ _ => rfl, rfl, rfl, rfl, fun _ _ _ => rfl, rfl, rfl⟩

/-- C7 (counterexample): the claim asserts that for every integer `a` the
single-argument division `(/ a)` evaluates to the rational `1/a`; at `a = 0`
the code instead throws the division-by-zero `RuntimeError`. -/
theorem claim7_counterexample :
    DivVar.evalRator [.int 0] = .error "Division by zero" := rfl

/-- C7 (amended): the identity laws hold as claimed except at zero —
`(+)` is 0, `(*)` is 1, `(- a)` is `-a`, `(+ a b)` is the mathematical sum,
`-`/`/` with no arguments throw, and `(/ a)` is the rational `1/a` for every
nonzero integer `a`, while `(/ 0)` throws "Division by zero". -/
theorem claim7_variadic_arithmetic_identities :
    PlusVar.evalRator [] = .ok (.int 0) ∧
    MultVar.evalRator [] = .ok (.int 1) ∧
    (∀ a : Int, MinusVar.evalRator [.int a] = .ok (.int (-a))) ∧
    (∀ a : Int, a ≠ 0 → DivVar.evalRator [.int a] = .ok (.rat 1 a)) ∧
    (∀ a b : Int, PlusVar.evalRator [.int a, .int b] = .ok (.int (a + b))) ∧
    MinusVar.evalRator [] = .error "- requires at least one argument" ∧
    DivVar.evalRator [] = .error "/ requires at least one argument" := by
  refine ⟨rfl, rfl, ?_, ?_, ?_, rfl, rfl⟩
  · intro a
    simp [MinusVar.evalRator, subtractValues]
  · intro a ha
    simp [DivVar.evalRator, divideValues, ha]
  · intro a b
    simp [PlusVar.evalRator, foldValues, addValues]

/-- C7 (witness): the amended theorem applied at the nonzero integer 3. -/
theorem claim7_witness : DivVar.evalRator [.int 3] = .ok (.rat 1 3) :=
  claim7_variadic_arithmetic_identities.2.2.2.1 3 (by decide)

/-- C8 (counterexample): the claim asserts that a comparison chain with
fewer than two arguments is an error; the code instead returns `#t` both on
the empty argument list and on a single argument. -/
theorem claim8_counterexample :
    LessVar.evalRator [] = .ok (.bool true) ∧
    GreaterVar.evalRator [.int 5] = .ok (.bool true) := ⟨rfl, rfl⟩

/-- C8 (amended): with two or more numeric arguments each variadic
comparison returns `#t` exactly when its relation holds across every
adjacent pair (the scan stops at the first failing pair); with fewer than
two arguments it returns `#t` rather than raising an error. -/
theorem claim8_comparison_chains_amended :
    (∀ args : List Value, (∀ v ∈ args, isNumeric v = true) → 2 ≤ args.length →
      LessVar.evalRator args
        = .ok (.bool (pairwiseHolds (fun c => decide (c < 0)) args)) ∧
      LessEqVar.evalRator args
        = .ok (.bool (pairwiseHolds (fun c => decide (c ≤ 0)) args)) ∧
      EqualVar.evalRator args
        = .ok (.bool (pairwiseHolds (fun c => decide (c = 0)) args)) ∧
      GreaterEqVar.evalRator args
        = .ok (.bool (pairwiseHolds (fun c => decide (0 ≤ c)) args)) ∧
      GreaterVar.evalRator args
        = .ok (.bool (pairwiseHolds (fun c => decide (0 < c)) args))) ∧
    (∀ args : List Value, args.length < 2 →
      LessVar.evalRator args = .ok (.bool true) ∧
      LessEqVar.evalRator args = .ok (.bool true) ∧
      EqualVar.evalRator args = .ok (.bool true) ∧
      GreaterEqVar.evalRator args = .ok (.bool true) ∧
      GreaterVar.evalRator args = .ok (.bool true)) := by
  constructor
  · intro args hnum hlen
    have hno : ¬ args.length < 2 := by omega
    refine ⟨?_, ?_, ?_, ?_, ?_⟩
    · rw [LessVar.evalRator, if_neg hno, compareChain_eq _ args hnum,
        pairwiseHolds_congr _ _ bnot_le_zero args]
    · rw [LessEqVar.evalRator, if_neg hno, compareChain_eq _ args hnum,
        pairwiseHolds_congr _ _ bnot_lt_zero args]
    · rw [EqualVar.evalRator, if_neg hno, compareChain_eq _ args hnum,
        pairwiseHolds_congr _ _ bnot_ne_zero args]
    · rw [GreaterEqVar.evalRator, if_neg hno, compareChain_eq _ args hnum,
        pairwiseHolds_congr _ _ bnot_zero_gt args]
    · rw [GreaterVar.evalRator, if_neg hno, compareChain_eq _ args hnum,
        pairwiseHolds_congr _ _ bnot_zero_ge args]
  · intro args hlen
    exact ⟨by rw [LessVar.evalRator, if_pos hlen],
      by rw [LessEqVar.evalRator, if_pos hlen],
      by rw [EqualVar.evalRator, if_pos hlen],
      by rw [GreaterEqVar.evalRator, if_pos hlen],
      by rw [GreaterVar.evalRator, if_pos hlen]⟩

/-- C8 (witness): the amended theorem applied to the increasing chain
`1 < 2 < 3`. -/
theorem claim8_witness :
    LessVar.evalRator [.int 1, .int 2, .int 3] = .ok (.bool true) := by
  have h := (claim8_comparison_chains_amended.1 [.int 1, .int 2, .int 3]
    (by simp [isNumeric]) (by simp)).1
  exact h

/-- C4 (counterexample): the claim asserts that when a name matching a
primitive is bound in the environment, `Var::eval` returns the bound value.
The code checks the primitive table first: with `+` bound to the integer 42,
evaluating `Var "+"` yields the materialized primitive procedure, not 42. -/
theorem claim4_counterexample :
    find "+" (some 0) [⟨"+", .int 42, none⟩] = some (.int 42) ∧
    evalFuel 1 (.var "+") (some 0) [⟨"+", .int 42, none⟩]
      = .ok (.proc [] (.plusVar []) (some 0), some 0, [⟨"+", .int 42, none⟩]) ∧
    Value.proc [] (.plusVar []) (some 0) ≠ Value.int 42 :=
  ⟨rfl, rfl, by simp⟩

/-- C4 (amended): `Var::eval` consults the primitive table first — a
primitive name always materializes into a procedure, whatever the
environment binds; only non-primitive names are looked up in the
environment, an empty environment chain fails with "Null environment", a
bound name yields its value, and an unbound one fails with "Undefined
variable". -/
theorem claim4_var_primitive_first :
    (∀ (n : Nat) (x : String) (e : Assoc) (s : Store) (pe : Expr) (pp : List String),
      (primLookup x).bind primitiveMap = some (pe, pp) →
      evalFuel (n + 1) (.var x) e s = .ok (.proc pp pe e, e, s)) ∧
    (∀ (n : Nat) (x : String) (s : Store),
      primLookup x = none →
      evalFuel (n + 1) (.var x) none s = .err "Null environment") ∧
    (∀ (n : Nat) (x : String) (a : Nat) (s : Store) (v : Value),
      primLookup x = none → find x (some a) s = some v →
      evalFuel (n + 1) (.var x) (some a) s = .ok (v, some a, s)) ∧
    (∀ (n : Nat) (x : String) (a : Nat) (s : Store),
      primLookup x = none → find x (some a) s = none →
      evalFuel (n + 1) (.var x) (some a) s = .err ("Undefined variable: " ++ x)) := by
  refine ⟨?_, ?_, ?_, ?_⟩
  · intro n x e s pe pp h
    simp [evalFuel, h]
  · intro n x s h
    simp [evalFuel, h]
  · intro n x a s v h1 h2
    simp [evalFuel, h1, h2]
  · intro n x a s h1 h2
    simp [evalFuel, h1, h2]

/-- C4 (witness): the amended theorem applied to a non-primitive name bound
in a one-frame environment. -/
theorem claim4_witness :
    evalFuel 1 (.var "z") (some 0) [⟨"z", .int 7, none⟩]
      = .ok (.int 7, some 0, [⟨"z", .int 7, none⟩]) :=
  claim4_var_primitive_first.2.2.1 0 "z" 0 [⟨"z", .int 7, none⟩] (.int 7) rfl rfl

/-- C9 (counterexample): the claim asserts that `define` fails whenever the
defined name collides with a reserved word or primitive; defining the
primitive name `+` succeeds and yields Void. -/
theorem claim9_counterexample :
    evalFuel 2 (.defineE "+" (.fixnum 1)) none []
      = .ok (.voidV, some 0, [⟨"+", .int 1, none⟩]) := rfl

/-- C9 (amended): `Define::eval` performs no name check at all — for every
name, including reserved words and primitive names, it extends the
environment with a void placeholder, evaluates the value expression in the
extended environment, overwrites the placeholder, and yields Void. -/
theorem claim9_define_always_void :
    ∀ (n : Nat) (x : String) (ex : Expr) (e : Assoc) (s : Store) (v : Value)
      (e2 : Assoc) (s2 : Store),
      evalFuel n ex (extend x .voidV e s).1 (extend x .voidV e s).2
        = .ok (v, e2, s2) →
      evalFuel (n + 1) (.defineE x ex) e s
        = .ok (.voidV, e2, (modify x v e2 s2).getD s2) := by
  intro n x ex e s v e2 s2 h
  simp only [extend] at h
  simp only [evalFuel, extend]
  rw [h]

/-- C9 (witness): the amended theorem applied to `(define if 5)` — the
reserved word `if` is accepted and the result is Void. -/
theorem claim9_witness :
    evalFuel 2 (.defineE "if" (.fixnum 5)) none []
      = .ok (.voidV, some 0, [⟨"if", .int 5, none⟩]) :=
  claim9_define_always_void 1 "if" (.fixnum 5) none [] (.int 5) (some 0)
    [⟨"if", .voidV, none⟩] rfl

/-- C5: applying a procedure value evaluates the operator, fails on a
non-procedure, fails with "Wrong number of arguments" when the parameter
and argument counts differ, evaluates the argument expressions left to right
with the caller's environment reference, and evaluates the body in the
procedure's *captured* environment extended with the parameter bindings
(lexical scoping), returning the caller's environment reference alongside
the body's value. -/
theorem claim5_apply_lexical_scoping :
    (∀ (n : Nat) (rator : Expr) (rands : List Expr) (e : Assoc) (s : Store)
       (ps : List String) (body : Expr) (ce e1 : Assoc) (s1 : Store)
       (vs : List Value) (e2 : Assoc) (s2 : Store) (v : Value) (e3 : Assoc)
       (s3 : Store),
      evalFuel n rator e s = .ok (.proc ps body ce, e1, s1) →
      ps.length = rands.length →
      argsLoop (evalFuel n) rands e1 s1 = .ok (vs, e2, s2) →
      evalFuel n body (extendList ps vs ce s2).1 (extendList ps vs ce s2).2
        = .ok (v, e3, s3) →
      evalFuel (n + 1) (.apply rator rands) e s = .ok (v, e2, s3)) ∧
    (∀ (n : Nat) (rator : Expr) (rands : List Expr) (e : Assoc) (s : Store)
       (ps : List String) (body : Expr) (ce e1 : Assoc) (s1 : Store),
      evalFuel n rator e s = .ok (.proc ps body ce, e1, s1) →
      ps.length ≠ rands.length →
      evalFuel (n + 1) (.apply rator rands) e s
        = .err "Wrong number of arguments") ∧
    (∀ (n : Nat) (rator : Expr) (rands : List Expr) (e : Assoc) (s : Store)
       (w : Value) (e1 : Assoc) (s1 : Store),
      evalFuel n rator e s = .ok (w, e1, s1) →
      w.vType ≠ VType.vProc →
      evalFuel (n + 1) (.apply rator rands) e s
        = .err "Attempt to apply a non-procedure") := by
  refine ⟨?_, ?_, ?_⟩
  · intro n rator rands e s ps body ce e1 s1 vs e2 s2 v e3 s3 h1 h2 h3 h4
    have hlen : vs.length = rands.length := argsLoop_length _ _ _ _ _ _ _ h3
    rcases hE : extendList ps vs ce s2 with ⟨pe, st⟩
    rw [hE] at h4
    simp [evalFuel, h1, h2, h3, hlen, hE, h4]
  · intro n rator rands e s ps body ce e1 s1 h1 h2
    simp [evalFuel, h1, h2]
  · intro n rator rands e s w e1 s1 h1 hw
    cases w
    case proc ps body ce => simp [Value.vType] at hw
    all_goals simp [evalFuel, h1]

/-- C5 (witness): applying the identity lambda to 7 returns 7, with the body
evaluated in the captured (empty) environment extended with `x ↦ 7`. -/
theorem claim5_witness :
    evalFuel 2 (.apply (.lambda ["x"] (.var "x")) [.fixnum 7]) none []
      = .ok (.int 7, none, [⟨"x", .int 7, none⟩]) :=
  claim5_apply_lexical_scoping.1 1 (.lambda ["x"] (.var "x")) [.fixnum 7]
    none [] ["x"] (.var "x") none none [] [.int 7] none [] (.int 7) (some 0)
    [⟨"x", .int 7, none⟩] rfl rfl rfl rfl

/-- C6: in a `let`, every initializer is evaluated against the let-form's
own environment, never against the frames built for its sibling bindings:
for all integers `a`, `b`, in
`(let ((x a)) (let ((x b) (y x)) y))` the initializer of `y` reads the outer
`x` (bound to `a`), not the sibling (bound to `b`), and the whole form
evaluates to `a`; the frames allocated in the store record the outer binding,
the sibling binding, and `y ↦ a`.  The spec's own instance with `a = 1`,
`b = 2` evaluates to the Integer 1. -/
theorem claim6_let_siblings_invisible :
    (∀ a b : Int,
      evalFuel 4 (.letE [("x", .fixnum a)]
          (.letE [("x", .fixnum b), ("y", .var "x")] (.var "y"))) none []
        = .ok (.int a, none,
            [⟨"x", .int a, none⟩, ⟨"x", .int b, some 0⟩, ⟨"y", .int a, some 1⟩])) ∧
    evalFuel 4 (.letE [("x", .fixnum 1)]
        (.letE [("x", .fixnum 2), ("y", .var "x")] (.var "y"))) none []
      = .ok (.int 1, none,
          [⟨"x", .int 1, none⟩, ⟨"x", .int 2, some 0⟩, ⟨"y", .int 1, some 1⟩]) :=
  ⟨fun _ _ => rfl, rfl⟩

/-! ### `and` / `or` (claim C3) -/

lemma andLoop_first_false (ev : Evaluator) (bad : Expr) (post : List Expr) :
    ∀ (pre : List Expr) (e : Assoc) (s : Store) (e1 : Assoc) (s1 : Store)
      (e2 : Assoc) (s2 : Store),
      seqTruthyRun ev pre e s = some (e1, s1) →
      ev bad e1 s1 = .ok (.bool false, e2, s2) →
      andList ev (pre ++ bad :: post) e s = .ok (.bool false, e2, s2) := by
  intro pre
  induction pre with
  | nil =>
    intro e s e1 s1 e2 s2 h1 h2
    simp only [seqTruthyRun, Option.some.injEq, Prod.mk.injEq] at h1
    obtain ⟨rfl, rfl⟩ := h1
    cases post <;> simp [andList, andLoop, h2, truthy]
  | cons p ps ih =>
    intro e s e1 s1 e2 s2 h1 h2
    simp only [seqTruthyRun] at h1
    split at h1
    next v e' s' hp =>
      split at h1
      next htr =>
        have hrec := ih e' s' e1 s1 e2 s2 h1 h2
        rw [List.cons_append]
        cases hq : ps ++ bad :: post with
        | nil => exact absurd hq (by simp)
        | cons hd tl =>
          rw [hq] at hrec
          simp only [andList] at hrec
          simp only [andList, andLoop, hp, htr, if_true]
          exact hrec
      next => simp at h1
    next => simp at h1

lemma andLoop_all_truthy (ev : Evaluator) (a : Expr) :
    ∀ (es : List Expr) (e : Assoc) (s : Store) (e1 : Assoc) (s1 : Store),
      seqTruthyRun ev (es ++ [a]) e s = some (e1, s1) →
      andList ev (es ++ [a]) e s = ev a e1 s1 := by
  intro es
  induction es with
  | nil =>
    intro e s e1 s1 h1
    simp only [List.nil_append, seqTruthyRun] at h1
    split at h1
    next v e' s' hp =>
      split at h1
      next htr =>
        simp only [seqTruthyRun, Option.some.injEq, Prod.mk.injEq] at h1
        obtain ⟨rfl, rfl⟩ := h1
        simp [andList, andLoop, hp, htr]
      next => simp at h1
    next => simp at h1
  | cons p ps ih =>
    intro e s e1 s1 h1
    simp only [List.cons_append, seqTruthyRun] at h1
    split at h1
    next v e' s' hp =>
      split at h1
      next htr =>
        have hrec := ih e' s' e1 s1 h1
        rw [List.cons_append]
        cases hq : ps ++ [a] with
        | nil => exact absurd hq (by simp)
        | cons hd tl =>
          rw [hq] at hrec
          simp only [andList] at hrec
          simp only [andList, andLoop, hp, htr, if_true]
          exact hrec
      next => simp at h1
    next => simp at h1

lemma orLoop_first_truthy (ev : Evaluator) (aa : Expr) (post : List Expr) :
    ∀ (pre : List Expr) (e : Assoc) (s : Store) (e1 : Assoc) (s1 : Store)
      (v : Value) (e2 : Assoc) (s2 : Store),
      seqFalseRun ev pre e s = some (e1, s1) →
      ev aa e1 s1 = .ok (v, e2, s2) →
      truthy v = true →
      orList ev (pre ++ aa :: post) e s = .ok (v, e2, s2) := by
  intro pre
  induction pre with
  | nil =>
    intro e s e1 s1 v e2 s2 h1 h2 h3
    simp only [seqFalseRun, Option.some.injEq, Prod.mk.injEq] at h1
    obtain ⟨rfl, rfl⟩ := h1
    cases post <;> simp [orList, orLoop, h2, h3]
  | cons p ps ih =>
    intro e s e1 s1 v e2 s2 h1 h2 h3
    simp only [seqFalseRun] at h1
    split at h1
    next e' s' hp =>
      have hrec := ih e' s' e1 s1 v e2 s2 h1 h2 h3
      rw [List.cons_append]
      cases hq : ps ++ aa :: post with
      | nil => exact absurd hq (by simp)
      | cons hd tl =>
        rw [hq] at hrec
        simp only [orList] at hrec
        simp only [orList, orLoop, hp, truthy, if_false]
        exact hrec
    next => simp at h1

lemma orLoop_all_false (ev : Evaluator) :
    ∀ (es : List Expr) (e : Assoc) (s : Store) (e1 : Assoc) (s1 : Store),
      seqFalseRun ev es e s = some (e1, s1) →
      orList ev es e s = .ok (.bool false, e1, s1) := by
  intro es
  induction es with
  | nil =>
    intro e s e1 s1 h1
    simp only [seqFalseRun, Option.some.injEq, Prod.mk.injEq] at h1
    obtain ⟨rfl, rfl⟩ := h1
    rfl
  | cons p ps ih =>
    intro e s e1 s1 h1
    simp only [seqFalseRun] at h1
    split at h1
    next e' s' hp =>
      have hrec := ih e' s' e1 s1 h1
      cases ps with
      | nil =>
        simp only [seqFalseRun, Option.some.injEq, Prod.mk.injEq] at h1
        obtain ⟨rfl, rfl⟩ := h1
        simp [orList, orLoop, hp, truthy]
      | cons hd tl =>
        simp only [orList] at hrec
        simp only [orList, orLoop, hp, truthy, if_false]
        exact hrec
    next => simp at h1

/-- C3 (counterexample): the claim asserts that `and` evaluates each
argument at most once and returns the value of the single evaluation of the
last argument.  With `x` bound to 1 and last argument
`(begin (set! x (+ x 1)) x)`, a single evaluation of that argument after the
truthy prefix yields 2, but evaluating the whole `and` yields 3 — the code
evaluates the last argument a second time. -/
theorem claim3_counterexample :
    evalFuel 10 (.andVar [.trueE,
        .begin [.setE "x" (.plusVar [.var "x", .fixnum 1]), .var "x"]])
        (some 0) [⟨"x", .int 1, none⟩]
      = .ok (.int 3, some 0, [⟨"x", .int 3, none⟩]) ∧
    seqTruthyRun (evalFuel 9) [.trueE] (some 0) [⟨"x", .int 1, none⟩]
      = some (some 0, [⟨"x", .int 1, none⟩]) ∧
    evalFuel 9 (.begin [.setE "x" (.plusVar [.var "x", .fixnum 1]), .var "x"])
        (some 0) [⟨"x", .int 1, none⟩]
      = .ok (.int 2, some 0, [⟨"x", .int 2, none⟩]) ∧
    Value.int 3 ≠ Value.int 2 :=
  ⟨rfl, rfl, rfl, by simp⟩

/-- C3 (amended): `and` evaluates its arguments left to right and returns
`#f` as soon as one evaluates to `#f`, with the following arguments never
evaluated, and empty `and` is `#t` — but when every argument evaluates
truthy, the last argument is evaluated a *second* time and the value of that
second evaluation is returned (so arguments before the last are evaluated
exactly once, the last twice).  `or` behaves exactly as claimed: arguments
are evaluated left to right at most once, the first non-`#f` value is
returned immediately, and `#f` results when the sequence is empty or all
arguments are `#f`. -/
theorem claim3_and_or_shortcircuit :
    (∀ (n : Nat) (rands : List Expr) (e : Assoc) (s : Store),
      evalFuel (n + 1) (.andVar rands) e s = andList (evalFuel n) rands e s) ∧
    (∀ (n : Nat) (rands : List Expr) (e : Assoc) (s : Store),
      evalFuel (n + 1) (.orVar rands) e s = orList (evalFuel n) rands e s) ∧
    (∀ (n : Nat) (e : Assoc) (s : Store),
      andList (evalFuel n) [] e s = .ok (.bool true, e, s)) ∧
    (∀ (n : Nat) (pre : List Expr) (bad : Expr) (post : List Expr)
       (e : Assoc) (s : Store) (e1 : Assoc) (s1 : Store) (e2 : Assoc) (s2 : Store),
      seqTruthyRun (evalFuel n) pre e s = some (e1, s1) →
      evalFuel n bad e1 s1 = .ok (.bool false, e2, s2) →
      andList (evalFuel n) (pre ++ bad :: post) e s = .ok (.bool false, e2, s2)) ∧
    (∀ (n : Nat) (es : List Expr) (a : Expr) (e : Assoc) (s : Store)
       (e1 : Assoc) (s1 : Store),
      seqTruthyRun (evalFuel n) (es ++ [a]) e s = some (e1, s1) →
      andList (evalFuel n) (es ++ [a]) e s = evalFuel n a e1 s1) ∧
    (∀ (n : Nat) (e : Assoc) (s : Store),
      orList (evalFuel n) [] e s = .ok (.bool false, e, s)) ∧
    (∀ (n : Nat) (pre : List Expr) (aa : Expr) (post : List Expr)
       (e : Assoc) (s : Store) (e1 : Assoc) (s1 : Store) (v : Value)
       (e2 : Assoc) (s2 : Store),
      seqFalseRun (evalFuel n) pre e s = some (e1, s1) →
      evalFuel n aa e1 s1 = .ok (v, e2, s2) →
      truthy v = true →
      orList (evalFuel n) (pre ++ aa :: post) e s = .ok (v, e2, s2)) ∧
    (∀ (n : Nat) (es : List Expr) (e : Assoc) (s : Store)
       (e1 : Assoc) (s1 : Store),
      seqFalseRun (evalFuel n) es e s = some (e1, s1) →
      orList (evalFuel n) es e s = .ok (.bool false, e1, s1)) :=
  ⟨fun _ _ _ _ => rfl,
   fun _ _ _ _ => rfl,
   fun _ _ _ => rfl,
   fun n pre bad post e s e1 s1 e2 s2 h1 h2 =>
     andLoop_first_false (evalFuel n) bad post pre e s e1 s1 e2 s2 h1 h2,
   fun n es a e s e1 s1 h1 =>
     andLoop_all_truthy (evalFuel n) a es e s e1 s1 h1,
   fun _ _ _ => rfl,
   fun n pre aa post e s e1 s1 v e2 s2 h1 h2 h3 =>
     orLoop_first_truthy (evalFuel n) aa post pre e s e1 s1 v e2 s2 h1 h2 h3,
   fun n es e s e1 s1 h1 => orLoop_all_false (evalFuel n) es e s e1 s1 h1⟩

/-- C3 (witness): the double-evaluation clause of the amended theorem
applied to the concrete `set!` example — after the truthy prefix and one
evaluation of the last argument (leaving `x ↦ 2`), the `and` loop evaluates
the last argument once more from that state. -/
theorem claim3_witness :
    andList (evalFuel 9)
        ([.trueE] ++ [.begin [.setE "x" (.plusVar [.var "x", .fixnum 1]), .var "x"]])
        (some 0) [⟨"x", .int 1, none⟩]
      = evalFuel 9 (.begin [.setE "x" (.plusVar [.var "x", .fixnum 1]), .var "x"])
          (some 0) [⟨"x", .int 2, none⟩] :=
  claim3_and_or_shortcircuit.2.2.2.2.1 9 [.trueE]
    (.begin [.setE "x" (.plusVar [.var "x", .fixnum 1]), .var "x"])
    (some 0) [⟨"x", .int 1, none⟩] (some 0) [⟨"x", .int 2, none⟩] rfl

/-- C1 (counterexample): the claim asserts that `(lambda (if) (if 1 2))`
parses with the inner `(if 1 2)` as an application of the variable `if`.
Parsing that form in the empty environment instead throws — the
reserved-word branch eagerly pre-parses every sub-form, and the parameter
list `(if)` is itself parsed as an `if` special form with too few
arguments. -/
theorem claim1_counterexample :
    parseStx 10 (.list [.symS "lambda", .list [.symS "if"],
        .list [.symS "if", .num 1, .num 2]]) none []
      = .err "Wrong number of arguments for if" := rfl

/-- C1 (amended): the lambda builder never extends the environment with its
parameter names — every sub-form, body included, is parsed in the unchanged
environment (general clause), so a body form headed by a reserved word is
parsed as that special form even when the word is a parameter.  Concretely,
`(lambda (if x y) (if 1 2))` parses to a `Lambda` whose parameters include
`if` and whose body is the `If` special-form node, not an application of
`Var "if"`; and `(lambda (if) (if 1 2))` itself fails at parse time (see the
counterexample). -/
theorem claim1_lambda_no_shadowing :
    (∀ (n : Nat) (ps bodyStx : List Stx) (env : Assoc) (s : Store)
       (pre : List Expr) (names : List String) (bes : List Expr),
      find "lambda" env s = none →
      parseArgsLoop (fun t => parseStx n t env s) (Stx.list ps :: bodyStx) = .ok pre →
      paramNames "Lambda parameter must be a symbol" ps = .ok names →
      bodyStx ≠ [] →
      parseArgsLoop (fun t => parseStx n t env s) bodyStx = .ok bes →
      parseStx (n + 1) (.list (.symS "lambda" :: .list ps :: bodyStx)) env s
        = .ok (.lambda names (mkBody bes))) ∧
    parseStx 10 (.list [.symS "lambda",
        .list [.symS "if", .symS "x", .symS "y"],
        .list [.symS "if", .num 1, .num 2]]) none []
      = .ok (.lambda ["if", "x", "y"] (.ifE (.fixnum 1) (.fixnum 2) none)) := by
  constructor
  · intro n ps bodyStx env s pre names bes h1 h2 h3 h4 h5
    cases bodyStx with
    | nil => exact absurd rfl h4
    | cons c cs =>
      have hlen : pre.length = cs.length + 2 := by
        have := parseArgsLoop_length _ _ _ h2
        simpa using this
      have hres : reservedLookup "lambda" = some ExprType.eLambda := rfl
      have hnl : ¬ pre.length < 2 := by omega
      simp [parseStx, h1, hres, h2, reservedDispatch, hnl, h3, h5]
  · rfl

/-- C1 (witness): the general clause of the amended theorem applied to the
closed form `(lambda (p) p)` in the empty environment. -/
theorem claim1_witness :
    parseStx 6 (.list [.symS "lambda", .list [.symS "p"], .symS "p"]) none []
      = .ok (.lambda ["p"] (.var "p")) :=
  claim1_lambda_no_shadowing.1 5 [.symS "p"] [.symS "p"] none []
    [.apply (.var "p") [], .var "p"] ["p"] [.var "p"] rfl rfl rfl (by simp) rfl

end Scheme
